import Mathlib

/-!
Verification of the snapshot diff engine of `mementor-ts`.

The embedding works at the level of `List Char` (abbreviated `Str`), with
JavaScript string primitives (`split`, `trim`, `includes`, `toLowerCase`,
`parseInt`, `parseFloat`, first-occurrence `replace`) modelled as executable
Lean functions.  JavaScript numbers are modelled as `Int` (`Option Int` where
`NaN` can arise); fractional values are out of scope of this development, and
the float comparison `similarity >= 0.7` is modelled as the exact rational
comparison `7/10 ≤ similarity`, which agrees with the double-precision
comparison for all word-set sizes below 10^15.
-/

/-- Strings are modelled as lists of characters. -/
abbrev Str := List Char

/-- The underlying character list of a string literal. -/
def str (s : String) : Str := s.data

/-- Whitespace characters matched by the JavaScript regex `\s` (ASCII part). -/
def isWs (c : Char) : Bool :=
  c = ' ' || c = '\t' || c = '\n' || c = '\r' || c = '\x0b' || c = '\x0c'

/-- Model of JavaScript `toLowerCase` (ASCII). -/
def lowerStr (s : Str) : Str := s.map Char.toLower

/-- `leadsWith pat s` holds when `pat` is an initial segment of `s`
(model of JavaScript `startsWith`). -/
def leadsWith : Str → Str → Bool
  | [], _ => true
  | _ :: _, [] => false
  | p :: ps, c :: cs => p == c && leadsWith ps cs

/-- Model of JavaScript `String.prototype.includes`. -/
def containsSub (s pat : Str) : Bool :=
  leadsWith pat s ||
    match s with
    | [] => false
    | _ :: cs => containsSub cs pat

/-- Model of JavaScript `split(c)` for a single-character separator:
split on every occurrence, keeping empty segments. -/
def splitChar (c : Char) : Str → List Str
  | [] => [[]]
  | a :: as =>
    if a = c then [] :: splitChar c as
    else
      match splitChar c as with
      | s :: ss => (a :: s) :: ss
      | [] => [[a]]

/-- Model of JavaScript `Array.prototype.join` with a one-character glue. -/
def joinChar (c : Char) : List Str → Str
  | [] => []
  | [l] => l
  | l :: ls => l ++ c :: joinChar c ls

/-- Splitting on the whitespace regex; the first argument is `some cur` while
inside a token with reversed prefix `cur`, and `none` while inside a
whitespace run. -/
def splitWsGo : Option Str → Str → List Str
  | none, [] => [[]]
  | some cur, [] => [cur.reverse]
  | none, c :: cs =>
    if isWs c then splitWsGo none cs else splitWsGo (some [c]) cs
  | some cur, c :: cs =>
    if isWs c then cur.reverse :: splitWsGo none cs
    else splitWsGo (some (c :: cur)) cs

/-- Model of JavaScript `split(/\s+/)`: split on maximal whitespace runs,
with an empty token at an end that begins/ends with whitespace. -/
def splitWs (s : Str) : List Str := splitWsGo (some []) s

/-- Model of JavaScript `trim`: drop whitespace from both ends. -/
def trimStr (s : Str) : Str :=
  ((s.dropWhile isWs).reverse.dropWhile isWs).reverse

/-- Model of JavaScript `String.prototype.replace` with a plain-string
pattern: replace the first occurrence only. -/
def jsReplaceFirst (s pat repl : Str) : Str :=
  match s with
  | [] => if pat = [] then repl else []
  | c :: cs =>
    if leadsWith pat (c :: cs) then repl ++ (c :: cs).drop pat.length
    else c :: jsReplaceFirst cs pat repl

/-- Numeric value of a list of decimal digit characters. -/
def digitsToNat (ds : Str) : Nat :=
  ds.foldl (fun a c => 10 * a + (c.toNat - 48)) 0

/-- Longest decimal-digit prefix, as a number; `none` when there is none. -/
def digitsPre (s : Str) : Option Nat :=
  let ds := s.takeWhile Char.isDigit
  if ds.isEmpty then none else some (digitsToNat ds)

/-- Sign handling shared by the `parseInt`/`parseFloat` models. -/
def parseIntCore (s : Str) : Option Int :=
  match s with
  | [] => none
  | c :: cs =>
    if c = '-' then (digitsPre cs).map (fun n => -(n : Int))
    else if c = '+' then (digitsPre cs).map (fun n => (n : Int))
    else (digitsPre (c :: cs)).map (fun n => (n : Int))

/-- Model of JavaScript `parseInt(s, 10)`: skip leading whitespace, optional
sign, longest digit prefix; `none` models `NaN`. -/
def parseInt10 (s : Str) : Option Int := parseIntCore (s.dropWhile isWs)

/-- Model of JavaScript `parseFloat` restricted to the integer part
(fractional digits, exponents and `Infinity` are outside the integer
embedding of JavaScript numbers). -/
def parseFloatM (s : Str) : Option Int := parseIntCore (s.dropWhile isWs)

/-- Decimal digit character of a value below ten. -/
def digitChar : Nat → Char
  | 0 => '0' | 1 => '1' | 2 => '2' | 3 => '3' | 4 => '4'
  | 5 => '5' | 6 => '6' | 7 => '7' | 8 => '8' | _ => '9'

/-- Fuel-indexed decimal rendering; the fuel dominates the digit count so
that the recursion is structural (and hence kernel-reducible). -/
def natToDigitsAux : Nat → Nat → Str
  | 0, _ => []
  | fuel + 1, n =>
    if n < 10 then [digitChar n]
    else natToDigitsAux fuel (n / 10) ++ [digitChar (n % 10)]

/-- Decimal rendering of a natural number (JavaScript template `${n}`). -/
def natToDigits (n : Nat) : Str := natToDigitsAux (n + 1) n

/-- Decimal rendering of an integer (JavaScript template `${n}`). -/
def intToStr (n : Int) : Str :=
  if n < 0 then '-' :: natToDigits (-n).toNat else natToDigits n.toNat

/- ## Content differ (src/services/snapshotComparer.ts, lines 126-175) -/

/-- `new Set(line.toLowerCase().split(/\s+/))` of `findSimilarLine`:
the word set of a line, as a duplicate-free list. -/
def wordSet (line : Str) : List Str := (splitWs (lowerStr line)).dedup

/-- The similarity test of `findSimilarLine`:
`commonWords.length / Math.max(words.size, otherWords.size) >= 0.7`.
The float comparison is modelled by the exact integer comparison
`7 * max ≤ 10 * common`, which agrees with the double-precision division
against the literal `0.7` for all set sizes below `10^15` (the word sets
are never empty, so the divisor is never zero). -/
def similar (line otherLine : Str) : Bool :=
  let words := wordSet line
  let otherWords := wordSet otherLine
  let commonWords := words.filter (fun w => otherWords.contains w)
  decide (7 * max words.length otherWords.length ≤ 10 * commonWords.length)

/-- `findSimilarLine` (lines 159-175): first line of `lines` similar to
`line`, if any. -/
def findSimilarLine (line : Str) (lines : List Str) : Option Str :=
  lines.find? (fun otherLine => similar line otherLine)

/-- Result type of the content differ. -/
structure ContentDiff where
  added : List Str
  removed : List Str
  modified : List (Str × Str)
  deriving DecidableEq, Repr

/-- The loop over `newLines` of `compareContent` (lines 136-147), producing
the `added` list and the `modified` pairs (old side first). -/
def diffNewLines (oldLines : List Str) : List Str → List Str × List (Str × Str)
  | [] => ([], [])
  | l :: ls =>
    let rest := diffNewLines oldLines ls
    if oldLines.contains l then rest
    else
      match findSimilarLine l oldLines with
      | some o => (rest.1, (o, l) :: rest.2)
      | none => (l :: rest.1, rest.2)

/-- `compareContent` (lines 126-157). -/
def compareContent (oldLines newLines : List Str) : ContentDiff :=
  let p := diffNewLines oldLines newLines
  let removed := oldLines.filter
    (fun l => !newLines.contains l && !(p.2.any (fun m => m.1 == l)))
  { added := p.1, removed := removed, modified := p.2 }

example :
    compareContent [str "w x y z"] [str "w x y z", str "w x y q"] =
      { added := [], removed := [],
        modified := [(str "w x y z", str "w x y q")] } := by decide

example :
    (compareContent [str "Fixed login bug", str "Add tests"]
      [str "Fixed login issue", str "Add tests", str "Update docs"]).modified
      = [] := by decide

/-- The word set of a line as stated by the spec: tokenize on whitespace,
case-insensitively, into a set of words. -/
def wordFinset (line : Str) : Finset Str := (splitWs (lowerStr line)).toFinset

/-- The similarity of the spec:
`|intersection| / max(|setA|, |setB|)`, as an exact rational. -/
def specSimilarity (a b : Str) : ℚ :=
  ((wordFinset a ∩ wordFinset b).card : ℚ) /
    (max (wordFinset a).card (wordFinset b).card : ℚ)

/- ## Health metrics (src/services/templateRenderer.ts, lines 5-20) -/

/-- The `HealthMetrics` record.  JavaScript numbers are modelled as `Int`. -/
structure HealthMetrics where
  last_updated : Str
  word_count : Int
  reading_time : Int
  has_todos : Bool
  todo_count : Int
  linked_files : List Str
  broken_links : List Str
  completion_percentage : Int
  section_count : Int
  section_depth : Int
  code_blocks : Int
  avg_section_length : Int
  readability_score : Int
  last_snapshot_delta : Int
  deriving DecidableEq, Repr

/- ## Metric extraction and snapshot parsing
(src/services/snapshotComparer.ts, lines 39-98) -/

/-- The search pattern of `extractMetric`: the template literal
`- (key):`. -/
def metricPat (key : Str) : Str := str "- " ++ key ++ str ":"

/-- `extractMetric` (lines 89-98).  `none` models the JavaScript `NaN`
outcome of `parseInt`/`parseFloat`; a missing label returns `some 0`
(the early `return 0`). -/
def extractMetric (lines : List Str) (key : Str) (isPercentage : Bool) :
    Option Int :=
  match lines.find? (fun l => containsSub l (metricPat key)) with
  | none => some 0
  | some line =>
    let value := trimStr ((splitChar ':' line).getD 1 [])
    if isPercentage then parseFloatM (jsReplaceFirst value (str "%") [])
    else parseInt10 ((splitChar ' ' value).getD 0 [])

/-- The health-metrics construction of `parseSnapshot` (lines 61-76).
`(... ).getD 0` models `... || 0` (both send `NaN` and `0` to `0`), and
`has_todos` models `extractMetric(...) > 0` (false on `NaN`). -/
def parseHealthMetrics (metadataLines : List Str) (updated : Str) :
    HealthMetrics :=
  { last_updated := updated
    word_count := (extractMetric metadataLines (str "Word Count") false).getD 0
    reading_time :=
      (extractMetric metadataLines (str "Reading Time") false).getD 0
    has_todos :=
      match extractMetric metadataLines (str "TODOs") false with
      | some v => decide (0 < v)
      | none => false
    todo_count := (extractMetric metadataLines (str "TODOs") false).getD 0
    linked_files := []
    broken_links := []
    completion_percentage :=
      (extractMetric metadataLines (str "Completion") true).getD 0
    section_count := (extractMetric metadataLines (str "Sections") false).getD 0
    section_depth := 0
    code_blocks := (extractMetric metadataLines (str "Code Blocks") false).getD 0
    avg_section_length := 0
    readability_score := 0
    last_snapshot_delta :=
      (extractMetric metadataLines (str "Days Since Last Snapshot") false).getD 0 }

/-- Fuel-indexed splitting on a multi-character separator (structural so
that it is kernel-reducible); the fuel dominates the string length. -/
def splitOnStrAux : Nat → Str → Str → List Str
  | 0, s, _ => [s]
  | fuel + 1, s, sep =>
    match s with
    | [] => [[]]
    | c :: cs =>
      if sep ≠ [] ∧ leadsWith sep (c :: cs) then
        [] :: splitOnStrAux fuel ((c :: cs).drop sep.length) sep
      else
        match splitOnStrAux fuel cs sep with
        | h :: t => (c :: h) :: t
        | [] => [[c]]

/-- Model of JavaScript `split(sep)` for a non-empty string separator. -/
def splitOnStr (s sep : Str) : List Str := splitOnStrAux (s.length + 1) s sep

/-- The `Version:`/`Created:`/`Updated:` extraction of `parseSnapshot`
(lines 56-58): `find(l => l.startsWith(label))?.split(': ')[1] || ''`. -/
def metaField (metadataLines : List Str) (label : Str) : Str :=
  match metadataLines.find? (fun l => leadsWith label l) with
  | some l => (splitOnStr l (str ": ")).getD 1 []
  | none => []

/-- The `SnapshotMetadata` record (lines 5-10).  `health_metrics` is
optional in the source type but always populated by `parseSnapshot`
(and force-unwrapped by `compareSnapshots`), so it is modelled plain. -/
structure SnapshotMetadata where
  version : Str
  created_at : Str
  updated_at : Str
  health_metrics : HealthMetrics
  deriving DecidableEq, Repr

/-- The return value of `parseSnapshot`. -/
structure ParsedSnapshot where
  metadata : SnapshotMetadata
  content : List Str
  deriving DecidableEq, Repr

/-- `parseSnapshot` (lines 40-87), with the file content supplied directly;
the thrown `Error` is modelled as `Except.error` carrying its message. -/
def parseSnapshot (content : Str) : Except Str ParsedSnapshot :=
  let lines := splitChar '\n' content
  match lines.findIdx? (fun l => l == str "---") with
  | none => .error (str "Invalid snapshot format: no metadata section found")
  | some metadataEndIndex =>
    let metadataLines := lines.take metadataEndIndex
    let contentLines := lines.drop (metadataEndIndex + 1)
    let updated := metaField metadataLines (str "Updated:")
    .ok
      { metadata :=
          { version := metaField metadataLines (str "Version:")
            created_at := metaField metadataLines (str "Created:")
            updated_at := updated
            health_metrics := parseHealthMetrics metadataLines updated }
        content := contentLines.filter (fun l => !(trimStr l == [])) }

/- ## Metric differ (src/services/snapshotComparer.ts, lines 100-124) -/

/-- The field names of `HealthMetrics`, over which the `for`-loop of
`compareMetrics` ranges. -/
inductive MetricKey where
  | last_updated | word_count | reading_time | has_todos | todo_count
  | linked_files | broken_links | completion_percentage | section_count
  | section_depth | code_blocks | avg_section_length | readability_score
  | last_snapshot_delta
  deriving DecidableEq, Repr

/-- The value of a `HealthMetrics` field:
`number | string | boolean | string[]`. -/
inductive MetricValue where
  | str (s : Str)
  | num (n : Int)
  | bool (b : Bool)
  | strList (l : List Str)
  deriving DecidableEq, Repr

/-- Field access `m[key]`. -/
def getMetric (m : HealthMetrics) : MetricKey → MetricValue
  | .last_updated => .str m.last_updated
  | .word_count => .num m.word_count
  | .reading_time => .num m.reading_time
  | .has_todos => .bool m.has_todos
  | .todo_count => .num m.todo_count
  | .linked_files => .strList m.linked_files
  | .broken_links => .strList m.broken_links
  | .completion_percentage => .num m.completion_percentage
  | .section_count => .num m.section_count
  | .section_depth => .num m.section_depth
  | .code_blocks => .num m.code_blocks
  | .avg_section_length => .num m.avg_section_length
  | .readability_score => .num m.readability_score
  | .last_snapshot_delta => .num m.last_snapshot_delta

/-- One entry of the `changes` map. -/
structure MetricChange where
  old : MetricValue
  new : MetricValue
  delta : Option Int
  deriving DecidableEq, Repr

/-- `compareMetrics` (lines 100-124).  The loop over `Object.keys(old)`
becomes a function on `MetricKey`; inequality of `JSON.stringify` images
is structural inequality of `MetricValue` (both deep value comparisons on
`number | string | boolean | string[]`). -/
def compareMetrics (old current : HealthMetrics) (key : MetricKey) :
    Option MetricChange :=
  let oldValue := getMetric old key
  let newValue := getMetric current key
  if oldValue ≠ newValue then
    some
      { old := oldValue
        new := newValue
        delta :=
          match oldValue, newValue with
          | .num a, .num b => some (b - a)
          | _, _ => none }
  else none

/- ## Snapshot comparison (src/services/snapshotComparer.ts, lines 177-196) -/

/-- The `metrics` section of a `SnapshotDiff`. -/
structure MetricsSection where
  old : HealthMetrics
  new : HealthMetrics
  changes : MetricKey → Option MetricChange

/-- The `SnapshotDiff` record (lines 12-37). -/
structure SnapshotDiff where
  oldPath : Str
  newPath : Str
  metrics : MetricsSection
  content : ContentDiff

/-- `compareSnapshots` (lines 177-196).  The filesystem is an explicit map
from paths to file contents; a failed parse of either file aborts the whole
comparison (`Promise.all` rejection). -/
def compareSnapshots (fs : Str → Str) (oldPath newPath : Str) :
    Except Str SnapshotDiff :=
  match parseSnapshot (fs oldPath), parseSnapshot (fs newPath) with
  | .ok oldSnapshot, .ok newSnapshot =>
    .ok
      { oldPath := oldPath
        newPath := newPath
        metrics :=
          { old := oldSnapshot.metadata.health_metrics
            new := newSnapshot.metadata.health_metrics
            changes :=
              compareMetrics oldSnapshot.metadata.health_metrics
                newSnapshot.metadata.health_metrics }
        content := compareContent oldSnapshot.content newSnapshot.content }
  | .error e, _ => .error e
  | _, .error e => .error e

/- ## Header rendering (src/services/templateRenderer.ts, lines 22-29,
77-121) -/

/-- The `DocumentationMetadata` record (dependencies as name/version
pairs). -/
structure DocumentationMetadata where
  version : Str
  created_at : Str
  updated_at : Str
  dependencies : List (Str × Str)
  health_metrics : Option HealthMetrics
  tags : List Str

/-- The `header` array built by `generateMetadataHeader` (lines 77-109)
before the final `join('\n')`. -/
def headerList (metadata : DocumentationMetadata) : List Str :=
  [str "=== MEMENTOR SNAPSHOT ===",
   str "Version: " ++ metadata.version,
   str "Created: " ++ metadata.created_at,
   str "Updated: " ++ metadata.updated_at,
   [],
   str "Dependencies:"]
  ++ metadata.dependencies.map (fun dep => str "- " ++ dep.1 ++ str ": " ++ dep.2)
  ++ (match metadata.health_metrics with
      | some m =>
        [[],
         str "Health Metrics:",
         str "- Word Count: " ++ intToStr m.word_count,
         str "- Reading Time: " ++ intToStr m.reading_time ++ str " minutes",
         str "- TODOs: " ++ intToStr m.todo_count,
         str "- Completion: " ++ intToStr m.completion_percentage ++ str "%",
         str "- Sections: " ++ intToStr m.section_count,
         str "- Code Blocks: " ++ intToStr m.code_blocks,
         str "- Days Since Last Snapshot: " ++ intToStr m.last_snapshot_delta]
      | none => [])
  ++ (if metadata.tags ≠ [] then
        [[], str "Tags:"] ++ metadata.tags.map (fun tag => str "- " ++ tag)
      else [])

/-- `generateMetadataHeader` (lines 77-110): the header lines joined by
newlines. -/
def generateMetadataHeader (metadata : DocumentationMetadata) : Str :=
  joinChar '\n' (headerList metadata)

/-- `createSnapshot` (lines 112-121), with the rendered template supplied
as `content`. -/
def createSnapshot (metadata : Option DocumentationMetadata) (content : Str) :
    Str :=
  match metadata with
  | some md => generateMetadataHeader md ++ str "\n\n---\n\n" ++ content
  | none => content

/-- Parsed `todo_count` of a parse result (0 on a parse error); used to
state properties of parsed snapshots without binders. -/
def snapTodoCount (e : Except Str ParsedSnapshot) : Int :=
  match e with
  | .ok r => r.metadata.health_metrics.todo_count
  | .error _ => 0

example :
    snapTodoCount (parseSnapshot (str "- TODOs: -5\n---\nbody")) = -5 := by
  decide

example :
    parseHealthMetrics [str "- TODOs: 0", str "- Completion: 100%"] [] =
      { last_updated := [], word_count := 0, reading_time := 0,
        has_todos := false, todo_count := 0, linked_files := [],
        broken_links := [], completion_percentage := 100, section_count := 0,
        section_depth := 0, code_blocks := 0, avg_section_length := 0,
        readability_score := 0, last_snapshot_delta := 0 } := by decide

/- ## String-level helper lemmas -/

theorem leadsWith_mem {pat s : Str} (h : leadsWith pat s = true) :
    ∀ {c : Char}, c ∈ pat → c ∈ s := by
  induction pat generalizing s with
  | nil => intro c hc; cases hc
  | cons p ps ih =>
    intro c hc
    cases s with
    | nil => simp [leadsWith] at h
    | cons a as =>
      simp only [leadsWith, Bool.and_eq_true, beq_iff_eq] at h
      rcases List.mem_cons.mp hc with hc | hc
      · exact hc ▸ h.1 ▸ List.mem_cons_self a as
      · exact List.mem_cons_of_mem a (ih h.2 hc)

theorem containsSub_mem {s pat : Str} (h : containsSub s pat = true) :
    ∀ {c : Char}, c ∈ pat → c ∈ s := by
  induction s with
  | nil =>
    intro c hc
    cases pat with
    | nil => cases hc
    | cons p ps => simp [containsSub, leadsWith] at h
  | cons a as ih =>
    intro c hc
    simp only [containsSub, Bool.or_eq_true] at h
    rcases h with h | h
    · exact leadsWith_mem h hc
    · exact List.mem_cons_of_mem a (ih h hc)

theorem containsSub_eq_false {s pat : Str} {c : Char} (hc : c ∈ pat)
    (hs : c ∉ s) : containsSub s pat = false := by
  cases h : containsSub s pat with
  | false => rfl
  | true => exact absurd (containsSub_mem h hc) hs

theorem leadsWith_append (pat rest : Str) :
    leadsWith pat (pat ++ rest) = true := by
  induction pat with
  | nil => rfl
  | cons p ps ih => simp [leadsWith, ih]

theorem containsSub_of_leads {s pat : Str} (h : leadsWith pat s = true) :
    containsSub s pat = true := by
  cases s <;> simp [containsSub, h]

theorem splitChar_ne_nil (c : Char) (s : Str) : splitChar c s ≠ [] := by
  induction s with
  | nil => simp [splitChar]
  | cons a as ih =>
    simp only [splitChar]
    split
    · simp
    · split
      · simp
      · simp

theorem splitChar_append (c : Char) (s t : Str) :
    splitChar c (s ++ c :: t) = splitChar c s ++ splitChar c t := by
  induction s with
  | nil => simp [splitChar]
  | cons a as ih =>
    by_cases hac : a = c
    · subst hac
      simp [splitChar, ih]
    · rcases hs : splitChar c as with _ | ⟨s0, ss⟩
      · exact absurd hs (splitChar_ne_nil c as)
      · simp [splitChar, hac, ih, hs]

theorem splitChar_no_occur {c : Char} {s : Str} (h : ∀ x ∈ s, x ≠ c) :
    splitChar c s = [s] := by
  induction s with
  | nil => rfl
  | cons a as ih =>
    have ha : a ≠ c := h a (List.mem_cons_self a as)
    have has : ∀ x ∈ as, x ≠ c := fun x hx => h x (List.mem_cons_of_mem a hx)
    simp only [splitChar, if_neg ha, ih has]

theorem splitChar_len_two {c : Char} {s : Str} (h : c ∈ s) :
    2 ≤ (splitChar c s).length := by
  induction s with
  | nil => cases h
  | cons a as ih =>
    by_cases hac : a = c
    · subst hac
      have h1 : 0 < (splitChar a as).length :=
        List.length_pos.mpr (splitChar_ne_nil a as)
      simp only [splitChar, List.length_cons]
      simp
      omega
    · have has : c ∈ as := by
        rcases List.mem_cons.mp h with h | h
        · exact absurd h.symm hac
        · exact h
      rcases hs : splitChar c as with _ | ⟨s0, ss⟩
      · exact absurd hs (splitChar_ne_nil c as)
      · have h2 := ih has
        rw [hs] at h2
        simp only [List.length_cons] at h2
        simp [splitChar, hac, hs]
        omega

theorem splitChar_joinChar {c : Char} {L : List Str} (hne : L ≠ [])
    (h : ∀ l ∈ L, ∀ x ∈ l, x ≠ c) : splitChar c (joinChar c L) = L := by
  induction L with
  | nil => exact absurd rfl hne
  | cons l ls ih =>
    cases ls with
    | nil =>
      simp only [joinChar]
      exact splitChar_no_occur (h l (List.mem_cons_self l []))
    | cons l2 ls2 =>
      have hl : ∀ x ∈ l, x ≠ c := h l (List.mem_cons_self _ _)
      have hrest : ∀ a ∈ l2 :: ls2, ∀ x ∈ a, x ≠ c :=
        fun a ha => h a (List.mem_cons_of_mem _ ha)
      simp only [joinChar, splitChar_append, splitChar_no_occur hl,
        ih (by simp) hrest, List.singleton_append]

theorem dropWhile_eq_self_of {p : Char → Bool} {s : Str}
    (h : ∀ x ∈ s, p x = false) : s.dropWhile p = s := by
  cases s with
  | nil => rfl
  | cons a as => simp [List.dropWhile_cons, h a (List.mem_cons_self a as)]

theorem trimStr_eq_self {s : Str} (h : ∀ x ∈ s, isWs x = false) :
    trimStr s = s := by
  have h2 : ∀ x ∈ s.reverse, isWs x = false := by
    intro x hx; exact h x (List.mem_reverse.mp hx)
  simp [trimStr, dropWhile_eq_self_of h, dropWhile_eq_self_of h2]

theorem trimStr_cons_ws {c : Char} {s : Str} (h : isWs c = true) :
    trimStr (c :: s) = trimStr s := by
  simp [trimStr, List.dropWhile_cons, h]

theorem trimStr_spec {s : Str} (hne : s ≠ [])
    (h1 : ∀ hh, isWs (s.head hh) = false)
    (h2 : ∀ hh, isWs (s.getLast hh) = false) : trimStr s = s := by
  rcases List.eq_nil_or_concat s with rfl | ⟨w, b, rfl⟩
  · exact absurd rfl hne
  · simp only [List.concat_eq_append] at hne h1 h2 ⊢
    have hb : isWs b = false := by
      have hx := h2 (by simp)
      rwa [List.getLast_append] at hx
    have hdrop : (w ++ [b]).dropWhile isWs = w ++ [b] := by
      cases w with
      | nil => simp [List.dropWhile_cons, hb]
      | cons a as =>
        have hx := h1 (by simp)
        simp only [List.cons_append, List.head_cons] at hx
        simp [List.dropWhile_cons, hx]
    have hrev : ((w ++ [b]).reverse).dropWhile isWs = (w ++ [b]).reverse := by
      simp only [List.reverse_append, List.reverse_cons, List.reverse_nil,
        List.nil_append, List.singleton_append]
      simp [List.dropWhile_cons, hb]
    simp [trimStr, hdrop, hrev, hb]

/- ## Digit-string lemmas -/

theorem digitChar_isDigit : ∀ k : Nat, (digitChar k).isDigit = true
  | 0 => rfl | 1 => rfl | 2 => rfl | 3 => rfl | 4 => rfl
  | 5 => rfl | 6 => rfl | 7 => rfl | 8 => rfl | _ + 9 => rfl

theorem digitChar_val {k : Nat} (h : k < 10) : (digitChar k).toNat - 48 = k := by
  interval_cases k <;> rfl

theorem natToDigitsAux_digits {fuel n : Nat} :
    ∀ c ∈ natToDigitsAux fuel n, c.isDigit = true := by
  induction fuel generalizing n with
  | zero => intro c hc; cases hc
  | succ fuel ih =>
    intro c hc
    simp only [natToDigitsAux] at hc
    split at hc
    · rcases List.mem_singleton.mp hc with rfl
      exact digitChar_isDigit n
    · rcases List.mem_append.mp hc with hc | hc
      · exact ih c hc
      · rcases List.mem_singleton.mp hc with rfl
        exact digitChar_isDigit (n % 10)

theorem natToDigits_digits {n : Nat} :
    ∀ c ∈ natToDigits n, c.isDigit = true := natToDigitsAux_digits

theorem natToDigitsAux_ne_nil {fuel n : Nat} :
    natToDigitsAux (fuel + 1) n ≠ [] := by
  simp only [natToDigitsAux]
  split
  · simp
  · simp

theorem natToDigits_ne_nil (n : Nat) : natToDigits n ≠ [] :=
  natToDigitsAux_ne_nil

theorem digitsToNat_append (a : Str) (c : Char) :
    digitsToNat (a ++ [c]) = 10 * digitsToNat a + (c.toNat - 48) := by
  simp [digitsToNat, List.foldl_append]

theorem natToDigitsAux_correct {fuel n : Nat} (h : n < 10 ^ fuel) :
    digitsToNat (natToDigitsAux fuel n) = n := by
  induction fuel generalizing n with
  | zero =>
    simp only [pow_zero, Nat.lt_one_iff] at h
    subst h
    rfl
  | succ fuel ih =>
    simp only [natToDigitsAux]
    split
    · next hlt =>
      simp only [digitsToNat, List.foldl_cons, List.foldl_nil]
      have := digitChar_val hlt
      omega
    · next hge =>
      have hdiv : n / 10 < 10 ^ fuel := by
        rw [Nat.div_lt_iff_lt_mul (by omega)]
        calc n < 10 ^ (fuel + 1) := h
          _ = 10 ^ fuel * 10 := by ring
      rw [digitsToNat_append, ih hdiv, digitChar_val (Nat.mod_lt n (by omega))]
      omega

theorem digitsToNat_natToDigits (n : Nat) :
    digitsToNat (natToDigits n) = n := by
  apply natToDigitsAux_correct
  calc n < 10 ^ n := Nat.lt_pow_self (by omega) n
    _ ≤ 10 ^ (n + 1) := Nat.pow_le_pow_right (by omega) (by omega)

theorem char_ne_of_digit {c d : Char} (hc : c.isDigit = true)
    (hd : d.isDigit = false) : c ≠ d := by
  intro h; rw [h] at hc; rw [hc] at hd; cases hd

theorem isWs_eq_false_of_digit {c : Char} (hc : c.isDigit = true) :
    isWs c = false := by
  cases hw : isWs c with
  | false => rfl
  | true =>
    exfalso
    simp only [isWs, Bool.or_eq_true, decide_eq_true_eq] at hw
    rcases hw with ((((rfl | rfl) | rfl) | rfl) | rfl) | rfl <;> simp_all

theorem takeWhile_eq_self_of {p : Char → Bool} {s : Str}
    (h : ∀ x ∈ s, p x = true) : s.takeWhile p = s := by
  induction s with
  | nil => rfl
  | cons a as ih =>
    simp [List.takeWhile_cons, h a (List.mem_cons_self a as),
      ih fun x hx => h x (List.mem_cons_of_mem a hx)]

theorem parseInt10_natToDigits (n : Nat) :
    parseInt10 (natToDigits n) = some (n : Int) := by
  have hd := @natToDigits_digits n
  have hws : ∀ x ∈ natToDigits n, isWs x = false :=
    fun x hx => isWs_eq_false_of_digit (hd x hx)
  rcases List.exists_cons_of_ne_nil (natToDigits_ne_nil n) with ⟨c0, cs0, heq⟩
  have hc0 : c0.isDigit = true := hd c0 (heq ▸ List.mem_cons_self c0 cs0)
  have hne1 : c0 ≠ '-' := char_ne_of_digit hc0 (by decide)
  have hne2 : c0 ≠ '+' := char_ne_of_digit hc0 (by decide)
  rw [parseInt10, dropWhile_eq_self_of hws, heq, parseIntCore]
  rw [if_neg hne1, if_neg hne2, ← heq]
  rw [digitsPre, takeWhile_eq_self_of hd]
  rw [List.isEmpty_eq_false_iff_exists_mem.mpr
    ⟨c0, heq ▸ List.mem_cons_self c0 cs0⟩]
  simp [digitsToNat_natToDigits]

/- ## Content-differ characterizations -/

theorem contains_eq_false_iff {l : List Str} {a : Str} :
    l.contains a = false ↔ a ∉ l := by
  rw [Bool.eq_false_iff]
  exact not_congr List.elem_iff

theorem diffNewLines_cons (old : List Str) (l : Str) (ls : List Str) :
    diffNewLines old (l :: ls) =
      if l ∈ old then diffNewLines old ls
      else
        match findSimilarLine l old with
        | some o => ((diffNewLines old ls).1, (o, l) :: (diffNewLines old ls).2)
        | none => (l :: (diffNewLines old ls).1, (diffNewLines old ls).2) := by
  simp only [diffNewLines]
  by_cases h : l ∈ old
  · rw [if_pos (List.elem_iff.mpr h), if_pos h]
  · rw [if_neg (fun hc => h (List.elem_iff.mp hc)), if_neg h]

theorem mem_added_iff {old new : List Str} {a : Str} :
    a ∈ (diffNewLines old new).1 ↔
      a ∈ new ∧ a ∉ old ∧ findSimilarLine a old = none := by
  induction new with
  | nil => simp [diffNewLines]
  | cons l ls ih =>
    rw [diffNewLines_cons]
    by_cases hl : l ∈ old
    · rw [if_pos hl, ih]
      constructor
      · rintro ⟨h1, h2, h3⟩
        exact ⟨List.mem_cons_of_mem l h1, h2, h3⟩
      · rintro ⟨h1, h2, h3⟩
        rcases List.mem_cons.mp h1 with rfl | h1
        · exact absurd hl h2
        · exact ⟨h1, h2, h3⟩
    · rw [if_neg hl]
      cases hf : findSimilarLine l old with
      | some p =>
        simp only []
        rw [ih]
        constructor
        · rintro ⟨h1, h2, h3⟩
          exact ⟨List.mem_cons_of_mem l h1, h2, h3⟩
        · rintro ⟨h1, h2, h3⟩
          rcases List.mem_cons.mp h1 with rfl | h1
          · rw [hf] at h3
            cases h3
          · exact ⟨h1, h2, h3⟩
      | none =>
        simp only [List.mem_cons]
        rw [ih]
        constructor
        · rintro (rfl | ⟨h1, h2, h3⟩)
          · exact ⟨Or.inl rfl, hl, hf⟩
          · exact ⟨Or.inr h1, h2, h3⟩
        · rintro ⟨rfl | h1, h2, h3⟩
          · exact Or.inl rfl
          · exact Or.inr ⟨h1, h2, h3⟩

theorem mem_modified_iff {old new : List Str} {o a : Str} :
    (o, a) ∈ (diffNewLines old new).2 ↔
      a ∈ new ∧ a ∉ old ∧ findSimilarLine a old = some o := by
  induction new with
  | nil => simp [diffNewLines]
  | cons l ls ih =>
    rw [diffNewLines_cons]
    by_cases hl : l ∈ old
    · rw [if_pos hl, ih]
      constructor
      · rintro ⟨h1, h2, h3⟩
        exact ⟨List.mem_cons_of_mem l h1, h2, h3⟩
      · rintro ⟨h1, h2, h3⟩
        rcases List.mem_cons.mp h1 with rfl | h1
        · exact absurd hl h2
        · exact ⟨h1, h2, h3⟩
    · rw [if_neg hl]
      cases hf : findSimilarLine l old with
      | some p =>
        simp only [List.mem_cons, Prod.mk.injEq]
        rw [ih]
        constructor
        · rintro (⟨rfl, rfl⟩ | ⟨h1, h2, h3⟩)
          · exact ⟨Or.inl rfl, hl, hf⟩
          · exact ⟨Or.inr h1, h2, h3⟩
        · rintro ⟨rfl | h1, h2, h3⟩
          · rw [hf] at h3
            exact Or.inl ⟨(Option.some.inj h3).symm, rfl⟩
          · exact Or.inr ⟨h1, h2, h3⟩
      | none =>
        simp only []
        rw [ih]
        constructor
        · rintro ⟨h1, h2, h3⟩
          exact ⟨List.mem_cons_of_mem l h1, h2, h3⟩
        · rintro ⟨h1, h2, h3⟩
          rcases List.mem_cons.mp h1 with rfl | h1
          · rw [hf] at h3
            cases h3
          · exact ⟨h1, h2, h3⟩

theorem splitWsGo_ne_nil (st : Option Str) (s : Str) : splitWsGo st s ≠ [] := by
  induction s generalizing st with
  | nil => cases st <;> simp [splitWsGo]
  | cons c cs ih =>
    cases st with
    | none =>
      simp only [splitWsGo]
      split
      · exact ih none
      · exact ih (some [c])
    | some cur =>
      simp only [splitWsGo]
      split
      · simp
      · exact ih (some (c :: cur))

theorem wordSet_ne_nil (l : Str) : wordSet l ≠ [] := by
  rw [wordSet, Ne, List.dedup_eq_nil]
  exact splitWsGo_ne_nil (some []) (lowerStr l)

theorem wordSet_length_eq (l : Str) :
    (wordSet l).length = (wordFinset l).card := by
  rw [wordSet, wordFinset, List.card_toFinset]

theorem wordFinset_card_pos (l : Str) : 0 < (wordFinset l).card := by
  rw [← wordSet_length_eq]
  exact List.length_pos.mpr (wordSet_ne_nil l)

theorem wordSet_common_eq (a b : Str) :
    ((wordSet a).filter (fun w => (wordSet b).contains w)).length =
      (wordFinset a ∩ wordFinset b).card := by
  have hnd : (wordSet a).Nodup := List.nodup_dedup _
  have hndf : ((wordSet a).filter (fun w => (wordSet b).contains w)).Nodup :=
    hnd.filter _
  calc ((wordSet a).filter (fun w => (wordSet b).contains w)).length
      = ((wordSet a).filter (fun w => (wordSet b).contains w)).dedup.length := by
        rw [hndf.dedup]
    _ = ((wordSet a).filter (fun w => (wordSet b).contains w)).toFinset.card :=
        (List.card_toFinset _).symm
    _ = (wordFinset a ∩ wordFinset b).card := by
        congr 1
        ext x
        simp [wordSet, wordFinset, List.mem_filter, List.elem_iff]

theorem nat_ratio_iff {C M : Nat} (hM : 0 < M) :
    7 * M ≤ 10 * C ↔ (7 : ℚ) / 10 ≤ (C : ℚ) / (M : ℚ) := by
  rw [div_le_div_iff₀ (by norm_num) (by exact_mod_cast hM)]
  constructor
  · intro h
    have hq : ((7 * M : ℕ) : ℚ) ≤ ((10 * C : ℕ) : ℚ) := by exact_mod_cast h
    push_cast at hq
    linarith
  · intro h
    have hq : ((7 * M : ℕ) : ℚ) ≤ ((10 * C : ℕ) : ℚ) := by push_cast; linarith
    exact_mod_cast hq

theorem similar_iff_spec (a b : Str) :
    similar a b = true ↔ (7 : ℚ) / 10 ≤ specSimilarity a b := by
  have hpos : 0 < max (wordFinset a).card (wordFinset b).card :=
    lt_of_lt_of_le (wordFinset_card_pos a) (le_max_left _ _)
  simp only [similar, decide_eq_true_eq]
  rw [wordSet_length_eq a, wordSet_length_eq b, wordSet_common_eq a b,
    specSimilarity]
  rw [nat_ratio_iff hpos]
  norm_cast

theorem compareContent_added (old new : List Str) :
    (compareContent old new).added = (diffNewLines old new).1 := rfl

theorem compareContent_modified (old new : List Str) :
    (compareContent old new).modified = (diffNewLines old new).2 := rfl

theorem mem_removed_iff {old new : List Str} {r : Str} :
    r ∈ (compareContent old new).removed ↔
      r ∈ old ∧ r ∉ new ∧ ∀ q, (r, q) ∉ (compareContent old new).modified := by
  show r ∈ old.filter _ ↔ _
  rw [List.mem_filter]
  simp only [Bool.and_eq_true, Bool.not_eq_true', List.any_eq_false,
    compareContent_modified]
  constructor
  · rintro ⟨h1, h2, h3⟩
    refine ⟨h1, ?_, ?_⟩
    · exact contains_eq_false_iff.mp h2
    · intro q hq
      have := h3 (r, q) hq
      simp at this
  · rintro ⟨h1, h2, h3⟩
    refine ⟨h1, ?_, ?_⟩
    · cases hc : new.contains r with
      | false => rfl
      | true => exact absurd (List.elem_iff.mp hc) h2
    · intro m hm
      cases m with
      | mk m1 m2 =>
        cases hbe : (m1 == r) with
        | false => simp
        | true =>
          have : m1 = r := by simpa using hbe
          subst this
          exact absurd hm (h3 m2)

/- ## Sample records used by witnesses -/

/-- A sample metrics record. -/
def mSample : HealthMetrics :=
  { last_updated := [], word_count := 3, reading_time := 1, has_todos := true,
    todo_count := 2, linked_files := [], broken_links := [],
    completion_percentage := 50, section_count := 4, section_depth := 0,
    code_blocks := 1, avg_section_length := 0, readability_score := 0,
    last_snapshot_delta := 7 }

/-- A second sample metrics record, differing in `word_count`. -/
def mSample2 : HealthMetrics :=
  { mSample with word_count := 10 }

/- ## Claim C1 -/

/-- C1, counterexample: on old body `["Fixed login bug", "Add tests"]` and
new body `["Fixed login issue", "Add tests", "Update docs"]` the content
diff does NOT return the claimed
`modified = [(Fixed login bug, Fixed login issue)]`, `added = [Update docs]`,
`removed = []`: the two login lines share only 2 of 3 words (≈0.667 < 0.70),
so no modified pair is formed. -/
theorem c1_claim_false :
    ¬ ((compareContent [str "Fixed login bug", str "Add tests"]
          [str "Fixed login issue", str "Add tests", str "Update docs"]).modified
          = [(str "Fixed login bug", str "Fixed login issue")] ∧
       (compareContent [str "Fixed login bug", str "Add tests"]
          [str "Fixed login issue", str "Add tests", str "Update docs"]).added
          = [str "Update docs"] ∧
       (compareContent [str "Fixed login bug", str "Add tests"]
          [str "Fixed login issue", str "Add tests", str "Update docs"]).removed
          = []) := by decide

/-- C1, amended: on that input the content diff returns
`modified = []`, `added = ["Fixed login issue", "Update docs"]` and
`removed = ["Fixed login bug"]` (the login pair falls below the 0.70
similarity threshold). -/
theorem c1_scenario :
    compareContent [str "Fixed login bug", str "Add tests"]
      [str "Fixed login issue", str "Add tests", str "Update docs"] =
      { added := [str "Fixed login issue", str "Update docs"],
        removed := [str "Fixed login bug"],
        modified := [] } := by decide

/- ## Claim C2 -/

/-- C2: for a new-sequence line absent verbatim from the old sequence, a
modified pair is formed exactly when some old line has spec similarity
(`|intersection| / max(|setA|, |setB|)` over case-insensitive
whitespace-tokenized word sets) at least `7/10`; the chosen old side is the
first old line meeting the threshold in input order; and when every old
line is strictly below the threshold the line is independently `added`. -/
theorem c2_similarity_threshold (old new : List Str) (n : Str)
    (hmem : n ∈ new) (hold : n ∉ old) :
    ((∃ o, (o, n) ∈ (compareContent old new).modified) ↔
      ∃ o ∈ old, (7 : ℚ) / 10 ≤ specSimilarity n o) ∧
    (∀ o, (o, n) ∈ (compareContent old new).modified →
      (7 : ℚ) / 10 ≤ specSimilarity n o ∧
      ∃ as bs, old = as ++ o :: bs ∧
        ∀ aa ∈ as, ¬ ((7 : ℚ) / 10 ≤ specSimilarity n aa)) ∧
    ((∀ o ∈ old, specSimilarity n o < 7 / 10) →
      n ∈ (compareContent old new).added ∧
      ∀ o, (o, n) ∉ (compareContent old new).modified) := by
  have hchar : ∀ o, (o, n) ∈ (compareContent old new).modified ↔
      findSimilarLine n old = some o := by
    intro o
    rw [compareContent_modified, mem_modified_iff]
    constructor
    · rintro ⟨_, _, h⟩
      exact h
    · intro h
      exact ⟨hmem, hold, h⟩
  refine ⟨?_, ?_, ?_⟩
  · constructor
    · rintro ⟨o, ho⟩
      have hf := (hchar o).mp ho
      have hp := List.find?_some hf
      have hom := List.mem_of_find?_eq_some hf
      exact ⟨o, hom, (similar_iff_spec n o).mp hp⟩
    · rintro ⟨o, hom, hsp⟩
      have hex : ∃ x, x ∈ old ∧ similar n x = true :=
        ⟨o, hom, (similar_iff_spec n o).mpr hsp⟩
      have hsome : (old.find? (fun x => similar n x)).isSome :=
        List.find?_isSome.mpr hex
      rcases Option.isSome_iff_exists.mp hsome with ⟨o2, ho2⟩
      exact ⟨o2, (hchar o2).mpr ho2⟩
  · intro o ho
    have hf := (hchar o).mp ho
    rw [findSimilarLine, List.find?_eq_some] at hf
    rcases hf with ⟨hp, as, bs, heq, hall⟩
    refine ⟨(similar_iff_spec n o).mp hp, as, bs, heq, ?_⟩
    intro aa haa hsp
    have hfa := hall aa haa
    have hta := (similar_iff_spec n aa).mpr hsp
    rw [hta] at hfa
    cases hfa
  · intro hall
    have hnone : findSimilarLine n old = none := by
      rw [findSimilarLine, List.find?_eq_none]
      intro x hx hpx
      exact absurd ((similar_iff_spec n x).mp hpx) (not_le.mpr (hall x hx))
    constructor
    · rw [compareContent_added, mem_added_iff]
      exact ⟨hmem, hold, hnone⟩
    · intro o ho
      have := (hchar o).mp ho
      rw [hnone] at this
      cases this

/-- C2 witness, at a pair sharing exactly 7 of 10 words (similarity exactly
0.70): the new line is paired as modified. -/
theorem c2_witness :
    ∃ o, (o, str "a b c d e f g x y z") ∈
      (compareContent [str "a b c d e f g h i j"]
        [str "a b c d e f g x y z"]).modified :=
  (c2_similarity_threshold [str "a b c d e f g h i j"]
      [str "a b c d e f g x y z"] (str "a b c d e f g x y z")
      (by decide) (by decide)).1.mpr
    ⟨str "a b c d e f g h i j", by decide,
      (similar_iff_spec _ _).mp (by decide)⟩

/- ## Claim C3 -/

/-- C3, counterexample: with old body `["w x y z"]` and new body
`["w x y z", "w x y q"]`, the old line `"w x y z"` is verbatim-matched
(it occurs in the new sequence) AND is the old side of a modified pair, so
the old sequence is not partitioned into exactly one of
{verbatim-matched, removed, modified.old}. -/
theorem c3_claim_false :
    str "w x y z" ∈ [str "w x y z", str "w x y q"] ∧
    (str "w x y z", str "w x y q") ∈
      (compareContent [str "w x y z"] [str "w x y z", str "w x y q"]).modified ∧
    str "w x y z" ∉
      (compareContent [str "w x y z"] [str "w x y z", str "w x y q"]).removed
    := by decide

/-- C3, amended: the new side is a partition — every new line is in exactly
one of {verbatim-matched, added, modified.new}; on the old side every old
line is verbatim-matched, removed, or the old side of a modified pair, and
`removed` is disjoint from the other two classes, but verbatim-matched and
modified.old may overlap. -/
theorem c3_partition (old new : List Str) (l : Str) :
    (l ∈ new →
      ((l ∈ old ∨ l ∈ (compareContent old new).added ∨
         ∃ p, (p, l) ∈ (compareContent old new).modified) ∧
       (l ∈ old → l ∉ (compareContent old new).added ∧
         ∀ p, (p, l) ∉ (compareContent old new).modified) ∧
       (l ∈ (compareContent old new).added →
         ∀ p, (p, l) ∉ (compareContent old new).modified))) ∧
    (l ∈ old →
      ((l ∈ new ∨ l ∈ (compareContent old new).removed ∨
         ∃ q, (l, q) ∈ (compareContent old new).modified) ∧
       (l ∈ (compareContent old new).removed →
         l ∉ new ∧ ∀ q, (l, q) ∉ (compareContent old new).modified))) := by
  constructor
  · intro hn
    refine ⟨?_, ?_, ?_⟩
    · by_cases ho : l ∈ old
      · exact Or.inl ho
      · cases hf : findSimilarLine l old with
        | none =>
          refine Or.inr (Or.inl ?_)
          rw [compareContent_added, mem_added_iff]
          exact ⟨hn, ho, hf⟩
        | some p =>
          refine Or.inr (Or.inr ⟨p, ?_⟩)
          rw [compareContent_modified, mem_modified_iff]
          exact ⟨hn, ho, hf⟩
    · intro ho
      constructor
      · intro hadd
        rw [compareContent_added, mem_added_iff] at hadd
        exact hadd.2.1 ho
      · intro p hp
        rw [compareContent_modified, mem_modified_iff] at hp
        exact hp.2.1 ho
    · intro hadd p hp
      rw [compareContent_added, mem_added_iff] at hadd
      rw [compareContent_modified, mem_modified_iff] at hp
      rw [hadd.2.2] at hp
      cases hp.2.2
  · intro ho
    constructor
    · by_cases hn : l ∈ new
      · exact Or.inl hn
      · by_cases hm : ∃ q, (l, q) ∈ (compareContent old new).modified
        · exact Or.inr (Or.inr hm)
        · refine Or.inr (Or.inl ?_)
          rw [mem_removed_iff]
          exact ⟨ho, hn, fun q hq => hm ⟨q, hq⟩⟩
    · intro hr
      rw [mem_removed_iff] at hr
      exact ⟨hr.2.1, hr.2.2⟩

/-- C3 witness: the new-side coverage at a concrete input where the only
new line is classified `added`. -/
theorem c3_witness :
    str "b" ∈ [str "a"] ∨
    str "b" ∈ (compareContent [str "a"] [str "b"]).added ∨
    ∃ p, (p, str "b") ∈ (compareContent [str "a"] [str "b"]).modified :=
  ((c3_partition [str "a"] [str "b"] (str "b")).1 (by decide)).1

/- ## Claim C10 -/

/-- C10: the similar-line search never consumes old lines — at concrete
inputs, the same old line is the old side of two distinct modified pairs,
and a modified pair's old line also occurs unchanged (verbatim-matched) in
the new sequence. -/
theorem c10_old_not_consumed :
    ((compareContent [str "w x y z"] [str "w x y a", str "w x y b"]).modified =
      [(str "w x y z", str "w x y a"), (str "w x y z", str "w x y b")]) ∧
    (str "w x y z" ∈ [str "w x y z", str "w x y q"] ∧
     (compareContent [str "w x y z"] [str "w x y z", str "w x y q"]).modified =
      [(str "w x y z", str "w x y q")]) := by decide

/- ## Claim C6 -/

/-- C6: the changes map has an entry for a field exactly when the two field
values are structurally unequal; each entry carries the old and new values
and, when both are numeric, `delta = new - old`; and `diff(m, m)` is empty. -/
theorem c6_metric_changes (m1 m2 : HealthMetrics) (k : MetricKey) :
    ((compareMetrics m1 m2 k).isSome ↔ getMetric m1 k ≠ getMetric m2 k) ∧
    (∀ ch, compareMetrics m1 m2 k = some ch →
      ch.old = getMetric m1 k ∧ ch.new = getMetric m2 k ∧
      ∀ a b : Int, getMetric m1 k = .num a → getMetric m2 k = .num b →
        ch.delta = some (b - a)) ∧
    compareMetrics m1 m1 k = none := by
  refine ⟨?_, ?_, ?_⟩
  · by_cases heq : getMetric m1 k = getMetric m2 k
    · simp [compareMetrics, heq]
    · simp [compareMetrics, heq]
  · intro ch hch
    by_cases heq : getMetric m1 k = getMetric m2 k
    · simp [compareMetrics, heq] at hch
    · simp only [compareMetrics, if_pos heq, Option.some.injEq] at hch
      subst hch
      refine ⟨rfl, rfl, ?_⟩
      intro a b ha hb
      simp [ha, hb]
  · simp [compareMetrics]

/-- C6 witness: the changes map of two concrete records. -/
theorem c6_witness :
    compareMetrics mSample mSample MetricKey.word_count = none :=
  (c6_metric_changes mSample mSample MetricKey.word_count).2.2

/- ## Claim C9 -/

/-- C9: the comparison result depends only on the two file contents (and
the two paths); any two runs over filesystems agreeing on the two paths
produce identical `SnapshotDiff`s. -/
theorem c9_deterministic (fsA fsB : Str → Str) (p q : Str)
    (h1 : fsA p = fsB p) (h2 : fsA q = fsB q) :
    compareSnapshots fsA p q = compareSnapshots fsB p q := by
  unfold compareSnapshots
  rw [h1, h2]

/-- C9 witness: two distinct filesystems agreeing on the two compared paths
give the same diff. -/
theorem c9_witness :
    compareSnapshots (fun _ => str "V: 1
---
body") (str "old.md")
        (str "new.md") =
      compareSnapshots
        (fun s => if s == str "other.md" then [] else str "V: 1
---
body")
        (str "old.md") (str "new.md") :=
  c9_deterministic _ _ _ _ (by decide) (by decide)

/- ## Claim C4 -/

/-- C4: parsing fails (with the format error) exactly when no line of the
document is exactly `---`; when the first `---` line is at index `i`, the
metadata is the lines before it and the body is the lines after it with
blank lines removed; and a comparison returns a complete diff exactly when
both parses succeed (no partial results). -/
theorem c4_separator_boundary (content : Str) :
    ((∃ e, parseSnapshot content = .error e) ↔
      ∀ l ∈ splitChar '\n' content, l ≠ str "---") ∧
    (∀ i, i < (splitChar '\n' content).length →
      (splitChar '\n' content).getD i [] = str "---" →
      str "---" ∉ (splitChar '\n' content).take i →
      ∃ r, parseSnapshot content = .ok r ∧
        r.content = ((splitChar '\n' content).drop (i + 1)).filter
          (fun l => !(trimStr l == [])) ∧
        r.metadata.health_metrics =
          parseHealthMetrics ((splitChar '\n' content).take i)
            (metaField ((splitChar '\n' content).take i) (str "Updated:"))) ∧
    (∀ fs p q, (∃ d, compareSnapshots fs p q = .ok d) ↔
      ((∃ a, parseSnapshot (fs p) = .ok a) ∧
       (∃ b, parseSnapshot (fs q) = .ok b))) := by
  refine ⟨?_, ?_, ?_⟩
  · cases hidx : (splitChar '\n' content).findIdx? (fun l => l == str "---") with
    | none =>
      have he : parseSnapshot content =
          .error (str "Invalid snapshot format: no metadata section found") := by
        simp only [parseSnapshot, hidx]
      rw [List.findIdx?_eq_none_iff] at hidx
      constructor
      · intro _ l hl
        simpa using hidx l hl
      · intro _
        exact ⟨_, he⟩
    | some i =>
      have hok : ∃ r, parseSnapshot content = .ok r := by
        simp only [parseSnapshot, hidx]
        exact ⟨_, rfl⟩
      rw [List.findIdx?_eq_some_iff_getElem] at hidx
      rcases hidx with ⟨hlt, hp, _⟩
      constructor
      · rintro ⟨e, he⟩
        rcases hok with ⟨r, hr⟩
        rw [hr] at he
        cases he
      · intro hall
        have hgl : (splitChar '\n' content)[i] = str "---" := by
          simpa using hp
        exact ((hall _ (List.getElem_mem hlt)) hgl).elim
  · intro i hi hget hfirst
    have hsome : (splitChar '\n' content).findIdx? (fun l => l == str "---")
        = some i := by
      rw [List.findIdx?_eq_some_iff_getElem]
      refine ⟨hi, ?_, ?_⟩
      · rw [List.getD_eq_getElem _ _ hi] at hget
        simp [hget]
      · intro j hj
        have hlt2 : j < (splitChar '\n' content).length := Nat.lt_trans hj hi
        have hmemtake : (splitChar '\n' content)[j] ∈
            (splitChar '\n' content).take i := by
          rw [List.getElem_take' _ hlt2 hj]
          exact List.getElem_mem _
        intro hpj
        rw [beq_iff_eq] at hpj
        rw [hpj] at hmemtake
        exact hfirst hmemtake
    have heq : parseSnapshot content = .ok
        { metadata :=
            { version := metaField ((splitChar '\n' content).take i)
                (str "Version:")
              created_at := metaField ((splitChar '\n' content).take i)
                (str "Created:")
              updated_at := metaField ((splitChar '\n' content).take i)
                (str "Updated:")
              health_metrics :=
                parseHealthMetrics ((splitChar '\n' content).take i)
                  (metaField ((splitChar '\n' content).take i) (str "Updated:")) }
          content := ((splitChar '\n' content).drop (i + 1)).filter
            (fun l => !(trimStr l == [])) } := by
      simp only [parseSnapshot, hsome]
    exact ⟨_, heq, rfl, rfl⟩
  · intro fs p q
    cases hp : parseSnapshot (fs p) <;> cases hq : parseSnapshot (fs q) <;>
      simp [compareSnapshots, hp, hq]

/-- C4 witness, at a concrete two-section document whose separator is at
index 1. -/
theorem c4_witness :
    ∃ r, parseSnapshot (str "meta\n---\nbody\n\nmore") = .ok r ∧
      r.content = ((splitChar '\n' (str "meta\n---\nbody\n\nmore")).drop 2).filter
        (fun l => !(trimStr l == [])) ∧
      r.metadata.health_metrics =
        parseHealthMetrics
          ((splitChar '\n' (str "meta\n---\nbody\n\nmore")).take 1)
          (metaField ((splitChar '\n' (str "meta\n---\nbody\n\nmore")).take 1)
            (str "Updated:")) :=
  (c4_separator_boundary (str "meta\n---\nbody\n\nmore")).2.1 1 (by decide)
    (by decide) (by decide)

/- ## Claim C5 -/

/-- C5: metric extraction degrades softly — a missing `- <Label>:` line
yields the value 0 immediately, an unparseable value (`NaN`) resolves to 0
in the resulting record via `|| 0`, and the `split(':')[1]` access of
`extractMetric` is always in bounds when a line was found (the extraction
never throws). -/
theorem c5_soft_degradation (lines : List Str) :
    (∀ key pct, lines.find? (fun l => containsSub l (metricPat key)) = none →
      extractMetric lines key pct = some 0) ∧
    (∀ key l, lines.find? (fun l2 => containsSub l2 (metricPat key)) = some l →
      2 ≤ (splitChar ':' l).length) ∧
    (∀ updated,
      ((extractMetric lines (str "Word Count") false = none ∨
        lines.find? (fun l => containsSub l (metricPat (str "Word Count"))) = none) →
        (parseHealthMetrics lines updated).word_count = 0) ∧
      ((extractMetric lines (str "Reading Time") false = none ∨
        lines.find? (fun l => containsSub l (metricPat (str "Reading Time"))) = none) →
        (parseHealthMetrics lines updated).reading_time = 0) ∧
      ((extractMetric lines (str "TODOs") false = none ∨
        lines.find? (fun l => containsSub l (metricPat (str "TODOs"))) = none) →
        (parseHealthMetrics lines updated).todo_count = 0) ∧
      ((extractMetric lines (str "Completion") true = none ∨
        lines.find? (fun l => containsSub l (metricPat (str "Completion"))) = none) →
        (parseHealthMetrics lines updated).completion_percentage = 0) ∧
      ((extractMetric lines (str "Sections") false = none ∨
        lines.find? (fun l => containsSub l (metricPat (str "Sections"))) = none) →
        (parseHealthMetrics lines updated).section_count = 0) ∧
      ((extractMetric lines (str "Code Blocks") false = none ∨
        lines.find? (fun l => containsSub l (metricPat (str "Code Blocks"))) = none) →
        (parseHealthMetrics lines updated).code_blocks = 0) ∧
      ((extractMetric lines (str "Days Since Last Snapshot") false = none ∨
        lines.find?
          (fun l => containsSub l (metricPat (str "Days Since Last Snapshot"))) = none) →
        (parseHealthMetrics lines updated).last_snapshot_delta = 0)) := by
  have hz : ∀ key pct, (extractMetric lines key pct = none ∨
      lines.find? (fun l => containsSub l (metricPat key)) = none) →
      (extractMetric lines key pct).getD 0 = 0 := by
    intro key pct h
    rcases h with h | h
    · rw [h]
      rfl
    · simp only [extractMetric, h]
      rfl
  refine ⟨?_, ?_, ?_⟩
  · intro key pct h
    simp only [extractMetric, h]
  · intro key l h
    have hcs := List.find?_some h
    have hcolon : ':' ∈ metricPat key := by
      rw [metricPat]
      exact List.mem_append_right _ (by decide)
    exact splitChar_len_two (containsSub_mem hcs hcolon)
  · intro updated
    exact ⟨fun h => hz _ _ h, fun h => hz _ _ h, fun h => hz _ _ h,
      fun h => hz _ _ h, fun h => hz _ _ h, fun h => hz _ _ h,
      fun h => hz _ _ h⟩

/-- C5 witness: a line with an unparseable value resolves to 0 in the
record. -/
theorem c5_witness :
    (parseHealthMetrics [str "- Word Count: abc"] []).word_count = 0 :=
  ((c5_soft_degradation [str "- Word Count: abc"]).2.2 []).1
    (Or.inl (by decide))

/- ## Claim C8 -/

/-- C8, counterexample: parsing the snapshot document
`"- TODOs: -5\n---\nbody"` succeeds and produces `todo_count = -5`, a
negative numeric field, so not every parsed record has only non-negative
numeric fields. -/
theorem c8_claim_false :
    snapTodoCount (parseSnapshot (str "- TODOs: -5\n---\nbody")) < 0 := by
  decide

/-- C8, amended: every parsed record satisfies
`has_todos = (todo_count > 0)` unconditionally, and all numeric fields are
non-negative provided every metric value that parses does so to a
non-negative number (as is the case for generator-produced documents). -/
theorem c8_metrics_invariant (metadataLines : List Str) (updated : Str)
    (hwc : ∀ v, extractMetric metadataLines (str "Word Count") false = some v → 0 ≤ v)
    (hrt : ∀ v, extractMetric metadataLines (str "Reading Time") false = some v → 0 ≤ v)
    (htd : ∀ v, extractMetric metadataLines (str "TODOs") false = some v → 0 ≤ v)
    (hcp : ∀ v, extractMetric metadataLines (str "Completion") true = some v → 0 ≤ v)
    (hsc : ∀ v, extractMetric metadataLines (str "Sections") false = some v → 0 ≤ v)
    (hcb : ∀ v, extractMetric metadataLines (str "Code Blocks") false = some v → 0 ≤ v)
    (hds : ∀ v,
      extractMetric metadataLines (str "Days Since Last Snapshot") false = some v → 0 ≤ v) :
    ((parseHealthMetrics metadataLines updated).has_todos =
      decide (0 < (parseHealthMetrics metadataLines updated).todo_count)) ∧
    0 ≤ (parseHealthMetrics metadataLines updated).word_count ∧
    0 ≤ (parseHealthMetrics metadataLines updated).reading_time ∧
    0 ≤ (parseHealthMetrics metadataLines updated).todo_count ∧
    0 ≤ (parseHealthMetrics metadataLines updated).completion_percentage ∧
    0 ≤ (parseHealthMetrics metadataLines updated).section_count ∧
    0 ≤ (parseHealthMetrics metadataLines updated).section_depth ∧
    0 ≤ (parseHealthMetrics metadataLines updated).code_blocks ∧
    0 ≤ (parseHealthMetrics metadataLines updated).avg_section_length ∧
    0 ≤ (parseHealthMetrics metadataLines updated).readability_score ∧
    0 ≤ (parseHealthMetrics metadataLines updated).last_snapshot_delta := by
  have hgd : ∀ key pct,
      (∀ v, extractMetric metadataLines key pct = some v → 0 ≤ v) →
      0 ≤ (extractMetric metadataLines key pct).getD 0 := by
    intro key pct h
    cases hx : extractMetric metadataLines key pct with
    | none => simp
    | some v => simpa using h v hx
  refine ⟨?_, hgd _ _ hwc, hgd _ _ hrt, hgd _ _ htd, hgd _ _ hcp, hgd _ _ hsc,
    le_refl 0, hgd _ _ hcb, le_refl 0, le_refl 0, hgd _ _ hds⟩
  cases hx : extractMetric metadataLines (str "TODOs") false with
  | none => simp [parseHealthMetrics, hx]
  | some v => simp [parseHealthMetrics, hx]

/-- C8 witness, at a concrete metadata section with `- TODOs: 3`. -/
theorem c8_witness :
    ((parseHealthMetrics [str "- TODOs: 3"] []).has_todos =
      decide (0 < (parseHealthMetrics [str "- TODOs: 3"] []).todo_count)) ∧
    0 ≤ (parseHealthMetrics [str "- TODOs: 3"] []).word_count ∧
    0 ≤ (parseHealthMetrics [str "- TODOs: 3"] []).reading_time ∧
    0 ≤ (parseHealthMetrics [str "- TODOs: 3"] []).todo_count ∧
    0 ≤ (parseHealthMetrics [str "- TODOs: 3"] []).completion_percentage ∧
    0 ≤ (parseHealthMetrics [str "- TODOs: 3"] []).section_count ∧
    0 ≤ (parseHealthMetrics [str "- TODOs: 3"] []).section_depth ∧
    0 ≤ (parseHealthMetrics [str "- TODOs: 3"] []).code_blocks ∧
    0 ≤ (parseHealthMetrics [str "- TODOs: 3"] []).avg_section_length ∧
    0 ≤ (parseHealthMetrics [str "- TODOs: 3"] []).readability_score ∧
    0 ≤ (parseHealthMetrics [str "- TODOs: 3"] []).last_snapshot_delta :=
  c8_metrics_invariant [str "- TODOs: 3"] []
    (by intro v h
        have h0 : extractMetric [str "- TODOs: 3"] (str "Word Count") false
            = some 0 := by decide
        rw [h0] at h
        cases h
        decide)
    (by intro v h
        have h0 : extractMetric [str "- TODOs: 3"] (str "Reading Time") false
            = some 0 := by decide
        rw [h0] at h
        cases h
        decide)
    (by intro v h
        have h0 : extractMetric [str "- TODOs: 3"] (str "TODOs") false
            = some 3 := by decide
        rw [h0] at h
        cases h
        decide)
    (by intro v h
        have h0 : extractMetric [str "- TODOs: 3"] (str "Completion") true
            = some 0 := by decide
        rw [h0] at h
        cases h
        decide)
    (by intro v h
        have h0 : extractMetric [str "- TODOs: 3"] (str "Sections") false
            = some 0 := by decide
        rw [h0] at h
        cases h
        decide)
    (by intro v h
        have h0 : extractMetric [str "- TODOs: 3"] (str "Code Blocks") false
            = some 0 := by decide
        rw [h0] at h
        cases h
        decide)
    (by intro v h
        have h0 : extractMetric [str "- TODOs: 3"]
            (str "Days Since Last Snapshot") false = some 0 := by decide
        rw [h0] at h
        cases h
        decide)

/- ## Round-trip helper lemmas (claim C7) -/

theorem splitChar_cons_self (c : Char) (s : Str) :
    splitChar c (c :: s) = [] :: splitChar c s := by
  simp [splitChar]

theorem find?_containsSub_skip {pat : Str} {pre : List Str} {l : Str}
    {post : List Str} (hpre : ∀ p ∈ pre, containsSub p pat = false)
    (hl : containsSub l pat = true) :
    (pre ++ l :: post).find? (fun x => containsSub x pat) = some l := by
  induction pre with
  | nil => simp [List.find?_cons_of_pos, hl]
  | cons p ps ih =>
    have h0 : containsSub p pat = false := hpre p (List.mem_cons_self p ps)
    rw [List.cons_append]
    simp only [List.find?, h0]
    exact ih fun q hq => hpre q (List.mem_cons_of_mem p hq)

theorem extractMetric_first_int {lines pre post : List Str} {key l : Str}
    (hsplit : lines = pre ++ l :: post)
    (hpre : ∀ p ∈ pre, containsSub p (metricPat key) = false)
    (hl : containsSub l (metricPat key) = true) :
    extractMetric lines key false =
      parseInt10 ((splitChar ' '
        (trimStr ((splitChar ':' l).getD 1 []))).getD 0 []) := by
  simp only [extractMetric]
  rw [hsplit, find?_containsSub_skip hpre hl]
  rfl

theorem extractMetric_first_pct {lines pre post : List Str} {key l : Str}
    (hsplit : lines = pre ++ l :: post)
    (hpre : ∀ p ∈ pre, containsSub p (metricPat key) = false)
    (hl : containsSub l (metricPat key) = true) :
    extractMetric lines key true =
      parseFloatM (jsReplaceFirst
        (trimStr ((splitChar ':' l).getD 1 [])) (str "%") []) := by
  simp only [extractMetric]
  rw [hsplit, find?_containsSub_skip hpre hl]
  rfl

theorem not_mem_pre_digits {c : Char} (hc : c.isDigit = false) {pre : Str}
    {k : Nat} (h1 : c ∉ pre) : c ∉ pre ++ natToDigits k := by
  intro hx
  rcases List.mem_append.mp hx with h | h
  · exact h1 h
  · exact absurd (natToDigits_digits c h) (by simp [hc])

theorem not_mem_pre_digits_suf {c : Char} (hc : c.isDigit = false)
    {pre suf : Str} {k : Nat} (h1 : c ∉ pre) (h2 : c ∉ suf) :
    c ∉ pre ++ natToDigits k ++ suf := by
  intro hx
  rcases List.mem_append.mp hx with h | h
  · exact not_mem_pre_digits hc h1 h
  · exact h2 h

theorem all_ne_of_not_mem {c : Char} {s : Str} (h : c ∉ s) :
    ∀ x ∈ s, x ≠ c := by
  intro x hx heq
  exact h (heq ▸ hx)

theorem metric_line_ne_sep (rest : Str) : ('-' :: ' ' :: rest) ≠ str "---" := by
  intro h
  have : str "---" = '-' :: '-' :: '-' :: [] := rfl
  rw [this] at h
  simp at h

theorem jsReplaceFirst_tail_percent {a : Str} (h : ∀ x ∈ a, x ≠ '%') :
    jsReplaceFirst (a ++ ['%']) (str "%") [] = a := by
  induction a with
  | nil => rfl
  | cons c cs ih =>
    have hc : c ≠ '%' := h c (List.mem_cons_self c cs)
    have hbe : ('%' == c) = false := by
      rw [beq_eq_false_iff_ne]
      exact fun hh => hc hh.symm
    have hlw : leadsWith (str "%") (c :: (cs ++ ['%'])) = false := by
      show (('%' == c) && leadsWith [] (cs ++ ['%'])) = false
      rw [hbe]
      rfl
    rw [List.cons_append]
    simp only [jsReplaceFirst]
    rw [if_neg (by simp [hlw]),
      ih fun x hx => h x (List.mem_cons_of_mem c hx)]

theorem metric_value_trim {key rest : Str} (hkey : ':' ∉ key)
    (hrest1 : ∀ x ∈ rest, x ≠ ':') (hne : rest ≠ [])
    (hhead : ∀ hh : rest ≠ [], isWs (rest.head hh) = false)
    (hlast : ∀ hh : rest ≠ [], isWs (rest.getLast hh) = false) :
    trimStr ((splitChar ':' (metricPat key ++ ' ' :: rest)).getD 1 []) = rest := by
  have hshape : metricPat key ++ ' ' :: rest =
      (str "- " ++ key) ++ ':' :: (' ' :: rest) := by
    rw [metricPat, List.append_assoc (str "- " ++ key) (str ":") (' ' :: rest)]
    rfl
  have hp1 : ∀ x ∈ str "- " ++ key, x ≠ ':' := by
    intro x hx
    rcases List.mem_append.mp hx with h | h
    · have h2 : x ∈ ['-', ' '] := h
      rcases List.mem_cons.mp h2 with rfl | h3
      · decide
      · rcases List.mem_singleton.mp h3 with rfl
        decide
    · exact all_ne_of_not_mem hkey x h
  have hp2 : ∀ x ∈ ' ' :: rest, x ≠ ':' := by
    intro x hx
    rcases List.mem_cons.mp hx with rfl | h
    · decide
    · exact hrest1 x h
  rw [hshape, splitChar_append, splitChar_no_occur hp1, splitChar_no_occur hp2]
  show trimStr (' ' :: rest) = rest
  rw [trimStr_cons_ws (by decide)]
  exact trimStr_spec hne hhead hlast

theorem parseInt_plain_digits (k : Nat) :
    parseInt10 ((splitChar ' ' (natToDigits k)).getD 0 []) = some (k : Int) := by
  have hnosp : ∀ x ∈ natToDigits k, x ≠ ' ' := by
    intro x hx
    exact char_ne_of_digit (natToDigits_digits x hx) (by decide)
  rw [splitChar_no_occur hnosp]
  exact parseInt10_natToDigits k

theorem parseInt_minutes_digits (k : Nat) :
    parseInt10 ((splitChar ' '
      (natToDigits k ++ str " minutes")).getD 0 []) = some (k : Int) := by
  have hsh : natToDigits k ++ str " minutes" =
      natToDigits k ++ ' ' :: str "minutes" := rfl
  have hnosp : ∀ x ∈ natToDigits k, x ≠ ' ' := by
    intro x hx
    exact char_ne_of_digit (natToDigits_digits x hx) (by decide)
  have hnosp2 : ∀ x ∈ str "minutes", x ≠ ' ' := by decide
  rw [hsh, splitChar_append, splitChar_no_occur hnosp, splitChar_no_occur hnosp2]
  show parseInt10 (natToDigits k) = some (k : Int)
  exact parseInt10_natToDigits k

theorem parseFloat_percent_digits (k : Nat) :
    parseFloatM (jsReplaceFirst (natToDigits k ++ str "%")
      (str "%") []) = some (k : Int) := by
  have hnp : ∀ x ∈ natToDigits k, x ≠ '%' := by
    intro x hx
    exact char_ne_of_digit (natToDigits_digits x hx) (by decide)
  have hsh : natToDigits k ++ str "%" = natToDigits k ++ ['%'] := rfl
  rw [hsh, jsReplaceFirst_tail_percent hnp]
  exact parseInt10_natToDigits k

/- ## Claim C7 -/

theorem findIdx?_cons_false {p : Str → Bool} {a : Str} {l : List Str} {i : Nat}
    (h : p a = false) :
    List.findIdx? p (a :: l) i = List.findIdx? p l (i + 1) := by
  simp [List.findIdx?_cons, h]

theorem findIdx?_cons_true {p : Str → Bool} {a : Str} {l : List Str} {i : Nat}
    (h : p a = true) : List.findIdx? p (a :: l) i = some i := by
  simp [List.findIdx?_cons, h]

/-- The fixed documentation metadata used for the round-trip claim: a
concrete version and timestamps, no dependencies, no tags, and the given
health metrics. -/
def mdFor (m : HealthMetrics) : DocumentationMetadata :=
  { version := str "1.0.0", created_at := str "2024-01-01",
    updated_at := str "2024-01-02", dependencies := [],
    health_metrics := some m, tags := [] }

/-- The rendered `- Word Count:` line. -/
def wcLine (m : HealthMetrics) : Str :=
  str "- Word Count: " ++ natToDigits m.word_count.toNat

/-- The rendered `- Reading Time:` line. -/
def rtLine (m : HealthMetrics) : Str :=
  str "- Reading Time: " ++ natToDigits m.reading_time.toNat ++ str " minutes"

/-- The rendered `- TODOs:` line. -/
def tdLine (m : HealthMetrics) : Str :=
  str "- TODOs: " ++ natToDigits m.todo_count.toNat

/-- The rendered `- Completion:` line. -/
def cpLine (m : HealthMetrics) : Str :=
  str "- Completion: " ++ natToDigits m.completion_percentage.toNat ++ str "%"

/-- The rendered `- Sections:` line. -/
def scLine (m : HealthMetrics) : Str :=
  str "- Sections: " ++ natToDigits m.section_count.toNat

/-- The rendered `- Code Blocks:` line. -/
def cbLine (m : HealthMetrics) : Str :=
  str "- Code Blocks: " ++ natToDigits m.code_blocks.toNat

/-- The rendered `- Days Since Last Snapshot:` line. -/
def dsLine (m : HealthMetrics) : Str :=
  str "- Days Since Last Snapshot: " ++ natToDigits m.last_snapshot_delta.toNat

/-- The non-metric lines of the rendered header of `mdFor`. -/
def headerA : List Str :=
  [str "=== MEMENTOR SNAPSHOT ===", str "Version: 1.0.0",
   str "Created: 2024-01-01", str "Updated: 2024-01-02", [],
   str "Dependencies:", [], str "Health Metrics:"]

/-- The metadata section that `parseSnapshot` recovers from a snapshot
rendered with metadata `mdFor m`. -/
def metaLinesFor (m : HealthMetrics) : List Str :=
  headerA ++ [wcLine m, rtLine m, tdLine m, cpLine m, scLine m, cbLine m,
    dsLine m] ++ [[]]

set_option maxHeartbeats 1600000 in
/-- C7: rendering the metadata header from a metrics record with
non-negative values and parsing the snapshot document back reproduces
exactly `word_count`, `reading_time`, `todo_count`,
`completion_percentage`, `section_count`, `code_blocks` and
`last_snapshot_delta`. -/
theorem c7_round_trip (m : HealthMetrics) (body : Str)
    (h1 : 0 ≤ m.word_count) (h2 : 0 ≤ m.reading_time) (h3 : 0 ≤ m.todo_count)
    (h4 : 0 ≤ m.completion_percentage) (h5 : 0 ≤ m.section_count)
    (h6 : 0 ≤ m.code_blocks) (h7 : 0 ≤ m.last_snapshot_delta) :
    ∃ r, parseSnapshot (createSnapshot (some (mdFor m)) body) = .ok r ∧
      r.metadata.health_metrics.word_count = m.word_count ∧
      r.metadata.health_metrics.reading_time = m.reading_time ∧
      r.metadata.health_metrics.todo_count = m.todo_count ∧
      r.metadata.health_metrics.completion_percentage =
        m.completion_percentage ∧
      r.metadata.health_metrics.section_count = m.section_count ∧
      r.metadata.health_metrics.code_blocks = m.code_blocks ∧
      r.metadata.health_metrics.last_snapshot_delta = m.last_snapshot_delta
    := by
  have e1 : intToStr m.word_count = natToDigits m.word_count.toNat :=
    if_neg (not_lt.mpr h1)
  have e2 : intToStr m.reading_time = natToDigits m.reading_time.toNat :=
    if_neg (not_lt.mpr h2)
  have e3 : intToStr m.todo_count = natToDigits m.todo_count.toNat :=
    if_neg (not_lt.mpr h3)
  have e4 : intToStr m.completion_percentage =
      natToDigits m.completion_percentage.toNat := if_neg (not_lt.mpr h4)
  have e5 : intToStr m.section_count = natToDigits m.section_count.toNat :=
    if_neg (not_lt.mpr h5)
  have e6 : intToStr m.code_blocks = natToDigits m.code_blocks.toNat :=
    if_neg (not_lt.mpr h6)
  have e7 : intToStr m.last_snapshot_delta =
      natToDigits m.last_snapshot_delta.toNat := if_neg (not_lt.mpr h7)
  have hHdef : headerList (mdFor m) = headerA ++
      [wcLine m, rtLine m, tdLine m, cpLine m, scLine m, cbLine m, dsLine m]
      := by
    simp only [headerA, wcLine, rtLine, tdLine, cpLine, scLine, cbLine, dsLine]
    rw [← e1, ← e2, ← e3, ← e4, ← e5, ← e6, ← e7]
    rfl
  have hdig : ∀ (k : Nat) (x : Char), x ∈ natToDigits k → x ≠ ':' :=
    fun _ x hx => char_ne_of_digit (natToDigits_digits x hx) (by decide)
  have hplainH : ∀ (k : Nat) (hh : natToDigits k ≠ []),
      isWs ((natToDigits k).head hh) = false :=
    fun _ hh => isWs_eq_false_of_digit (natToDigits_digits _ (List.head_mem hh))
  have hplainL : ∀ (k : Nat) (hh : natToDigits k ≠ []),
      isWs ((natToDigits k).getLast hh) = false :=
    fun _ hh =>
      isWs_eq_false_of_digit (natToDigits_digits _ (List.getLast_mem hh))
  have hnl : ∀ l ∈ headerList (mdFor m), ∀ x ∈ l, x ≠ '\n' := by
    rw [hHdef]
    intro l hl
    rcases List.mem_append.mp hl with h | h
    · exact (by decide : ∀ l ∈ headerA, ∀ x ∈ l, x ≠ '\n') l h
    · simp only [List.mem_cons] at h
      rcases h with rfl | rfl | rfl | rfl | rfl | rfl | rfl | h
      · exact all_ne_of_not_mem (not_mem_pre_digits (by decide) (by decide))
      · exact all_ne_of_not_mem
          (not_mem_pre_digits_suf (by decide) (by decide) (by decide))
      · exact all_ne_of_not_mem (not_mem_pre_digits (by decide) (by decide))
      · exact all_ne_of_not_mem
          (not_mem_pre_digits_suf (by decide) (by decide) (by decide))
      · exact all_ne_of_not_mem (not_mem_pre_digits (by decide) (by decide))
      · exact all_ne_of_not_mem (not_mem_pre_digits (by decide) (by decide))
      · exact all_ne_of_not_mem (not_mem_pre_digits (by decide) (by decide))
      · cases h
  have hne : headerList (mdFor m) ≠ [] := by
    rw [hHdef]
    simp [headerA]
  have hdoc : splitChar '\n' (createSnapshot (some (mdFor m)) body) =
      headerList (mdFor m) ++ ([] :: str "---" :: [] :: splitChar '\n' body)
      := by
    show splitChar '\n'
      (generateMetadataHeader (mdFor m) ++ str "\n\n---\n\n" ++ body) = _
    rw [generateMetadataHeader, List.append_assoc]
    have hx : str "\n\n---\n\n" ++ body =
        '\n' :: ('\n' :: (str "---" ++ '\n' :: ('\n' :: body))) := rfl
    rw [hx, splitChar_append, splitChar_joinChar hne hnl, splitChar_cons_self,
      splitChar_append, splitChar_cons_self]
    rfl
  have hfind : (splitChar '\n' (createSnapshot (some (mdFor m)) body)).findIdx?
      (fun l => l == str "---") = some 16 := by
    rw [hdoc, hHdef]
    simp only [headerA, List.cons_append, List.nil_append]
    rw [findIdx?_cons_false (by decide), findIdx?_cons_false (by decide),
      findIdx?_cons_false (by decide), findIdx?_cons_false (by decide),
      findIdx?_cons_false (by decide), findIdx?_cons_false (by decide),
      findIdx?_cons_false (by decide), findIdx?_cons_false (by decide),
      findIdx?_cons_false (by exact beq_eq_false_iff_ne.mpr (metric_line_ne_sep _)),
      findIdx?_cons_false (by exact beq_eq_false_iff_ne.mpr (metric_line_ne_sep _)),
      findIdx?_cons_false (by exact beq_eq_false_iff_ne.mpr (metric_line_ne_sep _)),
      findIdx?_cons_false (by exact beq_eq_false_iff_ne.mpr (metric_line_ne_sep _)),
      findIdx?_cons_false (by exact beq_eq_false_iff_ne.mpr (metric_line_ne_sep _)),
      findIdx?_cons_false (by exact beq_eq_false_iff_ne.mpr (metric_line_ne_sep _)),
      findIdx?_cons_false (by exact beq_eq_false_iff_ne.mpr (metric_line_ne_sep _)),
      findIdx?_cons_false (by decide), findIdx?_cons_true (by decide)]
  have hMD : (splitChar '\n' (createSnapshot (some (mdFor m)) body)).take 16 =
      metaLinesFor m := by
    rw [hdoc, hHdef]
    simp only [headerA, metaLinesFor, List.cons_append, List.nil_append]
    rfl
  have hparse : parseSnapshot (createSnapshot (some (mdFor m)) body) = .ok
      { metadata :=
          { version := metaField
              ((splitChar '\n' (createSnapshot (some (mdFor m)) body)).take 16)
              (str "Version:")
            created_at := metaField
              ((splitChar '\n' (createSnapshot (some (mdFor m)) body)).take 16)
              (str "Created:")
            updated_at := metaField
              ((splitChar '\n' (createSnapshot (some (mdFor m)) body)).take 16)
              (str "Updated:")
            health_metrics := parseHealthMetrics
              ((splitChar '\n' (createSnapshot (some (mdFor m)) body)).take 16)
              (metaField
                ((splitChar '\n' (createSnapshot (some (mdFor m)) body)).take 16)
                (str "Updated:")) }
        content :=
          ((splitChar '\n' (createSnapshot (some (mdFor m)) body)).drop 17).filter
            (fun l => !(trimStr l == [])) } := by
    simp only [parseSnapshot, hfind]
  have hs1 : metaLinesFor m = headerA ++ wcLine m ::
      [rtLine m, tdLine m, cpLine m, scLine m, cbLine m, dsLine m, []] := rfl
  have hs2 : metaLinesFor m = (headerA ++ [wcLine m]) ++ rtLine m ::
      [tdLine m, cpLine m, scLine m, cbLine m, dsLine m, []] := by
    simp [metaLinesFor]
  have hs3 : metaLinesFor m = (headerA ++ [wcLine m, rtLine m]) ++ tdLine m ::
      [cpLine m, scLine m, cbLine m, dsLine m, []] := by
    simp [metaLinesFor]
  have hs4 : metaLinesFor m = (headerA ++ [wcLine m, rtLine m, tdLine m]) ++
      cpLine m :: [scLine m, cbLine m, dsLine m, []] := by
    simp [metaLinesFor]
  have hs5 : metaLinesFor m =
      (headerA ++ [wcLine m, rtLine m, tdLine m, cpLine m]) ++
      scLine m :: [cbLine m, dsLine m, []] := by
    simp [metaLinesFor]
  have hs6 : metaLinesFor m =
      (headerA ++ [wcLine m, rtLine m, tdLine m, cpLine m, scLine m]) ++
      cbLine m :: [dsLine m, []] := by
    simp [metaLinesFor]
  have hs7 : metaLinesFor m =
      (headerA ++ [wcLine m, rtLine m, tdLine m, cpLine m, scLine m, cbLine m])
      ++ dsLine m :: [[]] := by
    simp [metaLinesFor]
  have hx1 : extractMetric (metaLinesFor m) (str "Word Count") false =
      some ((m.word_count.toNat : Nat) : Int) := by
    rw [extractMetric_first_int hs1 (by decide)
      (containsSub_of_leads (leadsWith_append _ _))]
    rw [show wcLine m = metricPat (str "Word Count") ++
      ' ' :: natToDigits m.word_count.toNat from rfl]
    rw [metric_value_trim (by decide) (hdig _) (natToDigits_ne_nil _)
      (hplainH _) (hplainL _)]
    exact parseInt_plain_digits _
  have hmin1 : ∀ x ∈ natToDigits m.reading_time.toNat ++ str " minutes",
      x ≠ ':' := by
    intro x hx
    rcases List.mem_append.mp hx with h | h
    · exact hdig _ x h
    · exact all_ne_of_not_mem (by decide) x h
  have hmin2 : natToDigits m.reading_time.toNat ++ str " minutes" ≠ [] := by
    intro hx
    exact natToDigits_ne_nil _ (List.append_eq_nil.mp hx).1
  have hmin3 : ∀ hh, isWs ((natToDigits m.reading_time.toNat ++
      str " minutes").head hh) = false := by
    intro hh
    rw [List.head_append_of_ne_nil (natToDigits_ne_nil _)]
    exact hplainH _ _
  have hmin4 : ∀ hh, isWs ((natToDigits m.reading_time.toNat ++
      str " minutes").getLast hh) = false := by
    intro hh
    rw [List.getLast_append_of_ne_nil (by decide : str " minutes" ≠ [])]
    decide
  have hx2 : extractMetric (metaLinesFor m) (str "Reading Time") false =
      some ((m.reading_time.toNat : Nat) : Int) := by
    rw [extractMetric_first_int hs2 ?hpre
      (containsSub_of_leads (leadsWith_append _ _))]
    case hpre =>
      intro p hp
      rcases List.mem_append.mp hp with h | h
      · exact (by decide :
          ∀ p ∈ headerA, containsSub p (metricPat (str "Reading Time")) = false)
          p h
      · rcases List.mem_singleton.mp h with rfl
        exact containsSub_eq_false (c := 'R') (by decide)
          (not_mem_pre_digits (by decide) (by decide))
    rw [show rtLine m = metricPat (str "Reading Time") ++
      ' ' :: (natToDigits m.reading_time.toNat ++ str " minutes") from rfl]
    rw [metric_value_trim (by decide) hmin1 hmin2 hmin3 hmin4]
    exact parseInt_minutes_digits _
  have hx3 : extractMetric (metaLinesFor m) (str "TODOs") false =
      some ((m.todo_count.toNat : Nat) : Int) := by
    rw [extractMetric_first_int hs3 ?hpre
      (containsSub_of_leads (leadsWith_append _ _))]
    case hpre =>
      intro p hp
      rcases List.mem_append.mp hp with h | h
      · exact (by decide :
          ∀ p ∈ headerA, containsSub p (metricPat (str "TODOs")) = false) p h
      · simp only [List.mem_cons] at h
        rcases h with rfl | rfl | h
        · exact containsSub_eq_false (c := 'T') (by decide)
            (not_mem_pre_digits (by decide) (by decide))
        · exact containsSub_eq_false (c := 'O') (by decide)
            (not_mem_pre_digits_suf (by decide) (by decide) (by decide))
        · cases h
    rw [show tdLine m = metricPat (str "TODOs") ++
      ' ' :: natToDigits m.todo_count.toNat from rfl]
    rw [metric_value_trim (by decide) (hdig _) (natToDigits_ne_nil _)
      (hplainH _) (hplainL _)]
    exact parseInt_plain_digits _
  have hpct1 : ∀ x ∈ natToDigits m.completion_percentage.toNat ++ str "%",
      x ≠ ':' := by
    intro x hx
    rcases List.mem_append.mp hx with h | h
    · exact hdig _ x h
    · exact all_ne_of_not_mem (by decide) x h
  have hpct2 : natToDigits m.completion_percentage.toNat ++ str "%" ≠ [] := by
    intro hx
    exact natToDigits_ne_nil _ (List.append_eq_nil.mp hx).1
  have hpct3 : ∀ hh, isWs ((natToDigits m.completion_percentage.toNat ++
      str "%").head hh) = false := by
    intro hh
    rw [List.head_append_of_ne_nil (natToDigits_ne_nil _)]
    exact hplainH _ _
  have hpct4 : ∀ hh, isWs ((natToDigits m.completion_percentage.toNat ++
      str "%").getLast hh) = false := by
    intro hh
    rw [List.getLast_append_of_ne_nil (by decide : str "%" ≠ [])]
    decide
  have hx4 : extractMetric (metaLinesFor m) (str "Completion") true =
      some ((m.completion_percentage.toNat : Nat) : Int) := by
    rw [extractMetric_first_pct hs4 ?hpre
      (containsSub_of_leads (leadsWith_append _ _))]
    case hpre =>
      intro p hp
      rcases List.mem_append.mp hp with h | h
      · exact (by decide :
          ∀ p ∈ headerA, containsSub p (metricPat (str "Completion")) = false)
          p h
      · simp only [List.mem_cons] at h
        rcases h with rfl | rfl | rfl | h
        · exact containsSub_eq_false (c := 'p') (by decide)
            (not_mem_pre_digits (by decide) (by decide))
        · exact containsSub_eq_false (c := 'p') (by decide)
            (not_mem_pre_digits_suf (by decide) (by decide) (by decide))
        · exact containsSub_eq_false (c := 'p') (by decide)
            (not_mem_pre_digits (by decide) (by decide))
        · cases h
    rw [show cpLine m = metricPat (str "Completion") ++
      ' ' :: (natToDigits m.completion_percentage.toNat ++ str "%") from rfl]
    rw [metric_value_trim (by decide) hpct1 hpct2 hpct3 hpct4]
    exact parseFloat_percent_digits _
  have hx5 : extractMetric (metaLinesFor m) (str "Sections") false =
      some ((m.section_count.toNat : Nat) : Int) := by
    rw [extractMetric_first_int hs5 ?hpre
      (containsSub_of_leads (leadsWith_append _ _))]
    case hpre =>
      intro p hp
      rcases List.mem_append.mp hp with h | h
      · exact (by decide :
          ∀ p ∈ headerA, containsSub p (metricPat (str "Sections")) = false) p h
      · simp only [List.mem_cons] at h
        rcases h with rfl | rfl | rfl | rfl | h
        · exact containsSub_eq_false (c := 'S') (by decide)
            (not_mem_pre_digits (by decide) (by decide))
        · exact containsSub_eq_false (c := 'S') (by decide)
            (not_mem_pre_digits_suf (by decide) (by decide) (by decide))
        · exact containsSub_eq_false (c := 'S') (by decide)
            (not_mem_pre_digits (by decide) (by decide))
        · exact containsSub_eq_false (c := 'S') (by decide)
            (not_mem_pre_digits_suf (by decide) (by decide) (by decide))
        · cases h
    rw [show scLine m = metricPat (str "Sections") ++
      ' ' :: natToDigits m.section_count.toNat from rfl]
    rw [metric_value_trim (by decide) (hdig _) (natToDigits_ne_nil _)
      (hplainH _) (hplainL _)]
    exact parseInt_plain_digits _
  have hx6 : extractMetric (metaLinesFor m) (str "Code Blocks") false =
      some ((m.code_blocks.toNat : Nat) : Int) := by
    rw [extractMetric_first_int hs6 ?hpre
      (containsSub_of_leads (leadsWith_append _ _))]
    case hpre =>
      intro p hp
      rcases List.mem_append.mp hp with h | h
      · exact (by decide :
          ∀ p ∈ headerA, containsSub p (metricPat (str "Code Blocks")) = false)
          p h
      · simp only [List.mem_cons] at h
        rcases h with rfl | rfl | rfl | rfl | rfl | h
        · exact containsSub_eq_false (c := 'B') (by decide)
            (not_mem_pre_digits (by decide) (by decide))
        · exact containsSub_eq_false (c := 'B') (by decide)
            (not_mem_pre_digits_suf (by decide) (by decide) (by decide))
        · exact containsSub_eq_false (c := 'B') (by decide)
            (not_mem_pre_digits (by decide) (by decide))
        · exact containsSub_eq_false (c := 'B') (by decide)
            (not_mem_pre_digits_suf (by decide) (by decide) (by decide))
        · exact containsSub_eq_false (c := 'B') (by decide)
            (not_mem_pre_digits (by decide) (by decide))
        · cases h
    rw [show cbLine m = metricPat (str "Code Blocks") ++
      ' ' :: natToDigits m.code_blocks.toNat from rfl]
    rw [metric_value_trim (by decide) (hdig _) (natToDigits_ne_nil _)
      (hplainH _) (hplainL _)]
    exact parseInt_plain_digits _
  have hx7 : extractMetric (metaLinesFor m) (str "Days Since Last Snapshot")
      false = some ((m.last_snapshot_delta.toNat : Nat) : Int) := by
    rw [extractMetric_first_int hs7 ?hpre
      (containsSub_of_leads (leadsWith_append _ _))]
    case hpre =>
      intro p hp
      rcases List.mem_append.mp hp with h | h
      · exact (by decide : ∀ p ∈ headerA,
          containsSub p (metricPat (str "Days Since Last Snapshot")) = false)
          p h
      · simp only [List.mem_cons] at h
        rcases h with rfl | rfl | rfl | rfl | rfl | rfl | h
        · exact containsSub_eq_false (c := 'y') (by decide)
            (not_mem_pre_digits (by decide) (by decide))
        · exact containsSub_eq_false (c := 'y') (by decide)
            (not_mem_pre_digits_suf (by decide) (by decide) (by decide))
        · exact containsSub_eq_false (c := 'y') (by decide)
            (not_mem_pre_digits (by decide) (by decide))
        · exact containsSub_eq_false (c := 'y') (by decide)
            (not_mem_pre_digits_suf (by decide) (by decide) (by decide))
        · exact containsSub_eq_false (c := 'y') (by decide)
            (not_mem_pre_digits (by decide) (by decide))
        · exact containsSub_eq_false (c := 'y') (by decide)
            (not_mem_pre_digits (by decide) (by decide))
        · cases h
    rw [show dsLine m = metricPat (str "Days Since Last Snapshot") ++
      ' ' :: natToDigits m.last_snapshot_delta.toNat from rfl]
    rw [metric_value_trim (by decide) (hdig _) (natToDigits_ne_nil _)
      (hplainH _) (hplainL _)]
    exact parseInt_plain_digits _
  refine ⟨_, hparse, ?_, ?_, ?_, ?_, ?_, ?_, ?_⟩
  · show (extractMetric
        ((splitChar '\n' (createSnapshot (some (mdFor m)) body)).take 16)
        (str "Word Count") false).getD 0 = m.word_count
    rw [hMD, hx1, Option.getD_some]
    exact Int.toNat_of_nonneg h1
  · show (extractMetric
        ((splitChar '\n' (createSnapshot (some (mdFor m)) body)).take 16)
        (str "Reading Time") false).getD 0 = m.reading_time
    rw [hMD, hx2, Option.getD_some]
    exact Int.toNat_of_nonneg h2
  · show (extractMetric
        ((splitChar '\n' (createSnapshot (some (mdFor m)) body)).take 16)
        (str "TODOs") false).getD 0 = m.todo_count
    rw [hMD, hx3, Option.getD_some]
    exact Int.toNat_of_nonneg h3
  · show (extractMetric
        ((splitChar '\n' (createSnapshot (some (mdFor m)) body)).take 16)
        (str "Completion") true).getD 0 = m.completion_percentage
    rw [hMD, hx4, Option.getD_some]
    exact Int.toNat_of_nonneg h4
  · show (extractMetric
        ((splitChar '\n' (createSnapshot (some (mdFor m)) body)).take 16)
        (str "Sections") false).getD 0 = m.section_count
    rw [hMD, hx5, Option.getD_some]
    exact Int.toNat_of_nonneg h5
  · show (extractMetric
        ((splitChar '\n' (createSnapshot (some (mdFor m)) body)).take 16)
        (str "Code Blocks") false).getD 0 = m.code_blocks
    rw [hMD, hx6, Option.getD_some]
    exact Int.toNat_of_nonneg h6
  · show (extractMetric
        ((splitChar '\n' (createSnapshot (some (mdFor m)) body)).take 16)
        (str "Days Since Last Snapshot") false).getD 0 = m.last_snapshot_delta
    rw [hMD, hx7, Option.getD_some]
    exact Int.toNat_of_nonneg h7

/-- C7 witness, at a concrete metrics record. -/
theorem c7_witness :
    ∃ r, parseSnapshot (createSnapshot (some (mdFor mSample)) (str "body")) =
        .ok r ∧
      r.metadata.health_metrics.word_count = mSample.word_count ∧
      r.metadata.health_metrics.reading_time = mSample.reading_time ∧
      r.metadata.health_metrics.todo_count = mSample.todo_count ∧
      r.metadata.health_metrics.completion_percentage =
        mSample.completion_percentage ∧
      r.metadata.health_metrics.section_count = mSample.section_count ∧
      r.metadata.health_metrics.code_blocks = mSample.code_blocks ∧
      r.metadata.health_metrics.last_snapshot_delta =
        mSample.last_snapshot_delta :=
  c7_round_trip mSample (str "body") (by decide) (by decide) (by decide)
    (by decide) (by decide) (by decide) (by decide)
